import Mathlib

/-!
Shallow embedding of `src/App.tsx` (a React user-registration form with a
zod validation schema, a react-hook-form field array and a supabase storage
upload).  JavaScript strings are modelled as Lean `String` (lists of
characters), file objects as a name/size record, machine numbers that the
form coerces as `Int`, and the fallible zod parse as a tri-state result that
separates a successful parse, a collected validation issue and an uncaught
JavaScript exception (`TypeError`).
-/

/-- A DOM `File`: only the fields the program reads (`name` for the upload
path, `size` for the 5 Mb refinement). -/
structure JSFile where
  name : String
  size : Nat
deriving DecidableEq, Repr

/-- Result of running a zod parse step: `ok` (parse succeeded), `invalid`
(a validation issue was collected, with its message), `thrown` (the parse
threw an uncaught JavaScript exception such as a `TypeError`). -/
inductive ZResult (α : Type) where
  | ok : α → ZResult α
  | invalid : String → ZResult α
  | thrown : ZResult α
deriving DecidableEq, Repr

/-- `r.isThrown` is true exactly on `thrown`. -/
def ZResult.isThrown {α : Type} : ZResult α → Bool
  | .thrown => true
  | _ => false

/- ### JavaScript string builtins (modelled; they live in the JS runtime,
not in the repository). -/

/-- Model of the whitespace class trimmed by JavaScript
`String.prototype.trim` (restricted to the ASCII part). -/
def isJsSpace (c : Char) : Bool :=
  c = ' ' || c = '\t' || c = '\n' || c = '\r' || c = '\x0b' || c = '\x0c'

/-- Model of JavaScript `String.prototype.trim`. -/
def jsTrim (s : String) : String :=
  String.mk (((s.data.dropWhile isJsSpace).reverse.dropWhile isJsSpace).reverse)

/-- Splitting accumulator for `jsSplitOnChar`: walks the characters,
cutting at every occurrence of the separator. -/
def splitOnCharAux (sep : Char) : List Char → List Char → List String
  | [], acc => [String.mk acc.reverse]
  | c :: cs, acc =>
    if c = sep then String.mk acc.reverse :: splitOnCharAux sep cs []
    else splitOnCharAux sep cs (c :: acc)

/-- Model of JavaScript `String.prototype.split` with a one-character
separator: `"".split(sep) = [""]`, `"a  b".split(" ") = ["a","","b"]`. -/
def jsSplitOnChar (sep : Char) (s : String) : List String :=
  splitOnCharAux sep s.data []

/-- Model of JavaScript `Array.prototype.join(" ")`. -/
def jsJoinSpace : List String → String
  | [] => ""
  | [w] => w
  | w :: ws => w ++ " " ++ jsJoinSpace ws

/-- Model of `String.prototype.toLocaleUpperCase` on one character
(ASCII range; the program only maps it over name characters). -/
def jsCharToUpper (c : Char) : Char :=
  if 97 ≤ c.toNat ∧ c.toNat ≤ 122 then Char.ofNat (c.toNat - 32) else c

/-- Model of `String.prototype.toLowerCase` on one character (ASCII range). -/
def jsCharToLower (c : Char) : Char :=
  if 65 ≤ c.toNat ∧ c.toNat ≤ 90 then Char.ofNat (c.toNat + 32) else c

/-- Model of JavaScript `String.prototype.toLowerCase` (zod's
`.toLowerCase()` transform applies it to the email). -/
def jsToLower (s : String) : String :=
  String.mk (s.data.map jsCharToLower)

/-- Model of JavaScript `String.prototype.endsWith`. -/
def jsEndsWith (s suf : String) : Bool :=
  List.isSuffixOf suf.data s.data

/- ### The zod schema `createUserFormSchema`, field by field. -/

/-- `avatar` field of `createUserFormSchema`:
`z.instanceof(FileList).transform(list => list.item(0)!).refine(file => file.size <= 5*1024*1024)`.
The raw value is `none` when the form supplies no `FileList` (the avatar
input is commented out, so `undefined` is submitted and `instanceof` fails);
on an empty `FileList`, `list.item(0)` is `null` and the refinement then
reads `.size` of `null`, a `TypeError`. -/
def avatarParse (avatar : Option (List JSFile)) : ZResult JSFile :=
  match avatar with
  | none => .invalid "Input not instance of FileList"
  | some files =>
    match files.head? with
    | none => .thrown
    | some f =>
      if f.size ≤ 5 * 1024 * 1024 then .ok f
      else .invalid "O arquivo precisa ter no máximo 5Mb"

/-- One word of the name transform:
`word => word[0].toLocaleUpperCase().concat(word.substring(1))`.
On the empty word, `word[0]` is `undefined` and calling
`toLocaleUpperCase` on it throws a `TypeError`, modelled as `none`. -/
def capitalizeWord (w : String) : Option String :=
  match w.data with
  | [] => none
  | c :: rest => some (String.mk (jsCharToUpper c :: rest))

/-- The `.transform` of the `name` field:
`name.trim().split(" ").map(word => word[0].toLocaleUpperCase().concat(word.substring(1))).join(" ")`. -/
def nameTransform (name : String) : ZResult String :=
  match (jsSplitOnChar ' ' (jsTrim name)).mapM capitalizeWord with
  | some ws => .ok (jsJoinSpace ws)
  | none => .thrown

/-- `name` field of `createUserFormSchema`: `z.string().nonempty(...)` then
the capitalize transform (the transform only runs when `nonempty` passed). -/
def nameParse (name : String) : ZResult String :=
  if name = "" then .invalid "O nome é obrigatório"
  else nameTransform name

/-- Model of the zod library's email-format check (`z.string().email()`;
the regex lives in the zod library, not in the repository): one `@` sign,
nonempty local part, a domain of at least two nonempty dot-separated
labels, and no space character. -/
def looksLikeEmail (s : String) : Bool :=
  match jsSplitOnChar '@' s with
  | [lp, dom] =>
    lp ≠ "" && (jsSplitOnChar '.' dom).length ≥ 2
      && (jsSplitOnChar '.' dom).all (· ≠ "") && !s.data.contains ' '
  | _ => false

/-- `email` field of `createUserFormSchema`:
`z.string().nonempty(...).email(...).toLowerCase().refine(email => email.endsWith("@boo.com.br"), ...)`. -/
def emailParse (email : String) : ZResult String :=
  if email = "" then .invalid "O e-mail é obrigatório"
  else if !looksLikeEmail email then .invalid "Formato de e-mail inválido"
  else if jsEndsWith (jsToLower email) "@boo.com.br" then .ok (jsToLower email)
  else .invalid "O e-mail precisa ser da boo"

/-- `password` field of `createUserFormSchema`: `z.string().min(6, ...)`. -/
def passwordParse (password : String) : ZResult String :=
  if 6 ≤ password.length then .ok password
  else .invalid "A senha precisa de no mínimo 6 caracteres"

/-- One entry of the `techs` field array.  `knowledge` carries the value
after `z.coerce.number()` has coerced the input string, modelled as `Int`. -/
structure RawTech where
  title : String
  knowledge : Int
deriving DecidableEq, Repr

/-- Element check of the `techs` array:
`title: z.string().nonempty(...)`, `knowledge: z.coerce.number().min(1).max(100)`. -/
def techOk (t : RawTech) : Bool :=
  t.title ≠ "" && 1 ≤ t.knowledge && t.knowledge ≤ 100

/-- `techs` field of `createUserFormSchema`: the element checks, the array
`.min(2, ...)`, and the refinement `techs.some(tech => tech.knowledge > 50)`. -/
def techsParse (ts : List RawTech) : ZResult (List RawTech) :=
  if !ts.all techOk then .invalid "Elemento de tecnologia inválido"
  else if ts.length < 2 then .invalid "Insira no mínimo duas tecnologias"
  else if ts.any (fun t => 50 < t.knowledge) then .ok ts
  else .invalid "Você está aprendendo!"

/-- The raw values the form submits to the resolver, one per registered
schema key.  `avatar` is `none` when no file input is registered. -/
structure RawFormData where
  avatar : Option (List JSFile)
  name : String
  email : String
  password : String
  techs : List RawTech
deriving DecidableEq, Repr

/-- `CreateUserFormData`: the output type of the schema
(`z.infer<typeof createUserFormSchema>`). -/
structure CreateUserFormData where
  avatar : JSFile
  name : String
  email : String
  password : String
  techs : List RawTech
deriving DecidableEq, Repr

/-- `createUserFormSchema.parse` over the whole object: each key is parsed
independently and issues are collected, but an exception thrown inside any
field's transform or refinement propagates out of the whole parse. -/
def createUserFormSchemaParse (raw : RawFormData) : ZResult CreateUserFormData :=
  if (avatarParse raw.avatar).isThrown || (nameParse raw.name).isThrown
      || (emailParse raw.email).isThrown || (passwordParse raw.password).isThrown
      || (techsParse raw.techs).isThrown then
    .thrown
  else
    match avatarParse raw.avatar, nameParse raw.name, emailParse raw.email,
        passwordParse raw.password, techsParse raw.techs with
    | .ok a, .ok n, .ok e, .ok p, .ok t => .ok ⟨a, n, e, p, t⟩
    | .invalid m, _, _, _, _ => .invalid m
    | _, .invalid m, _, _, _ => .invalid m
    | _, _, .invalid m, _, _ => .invalid m
    | _, _, _, .invalid m, _ => .invalid m
    | _, _, _, _, .invalid m => .invalid m
    | _, _, _, _, _ => .thrown

/- ### `JSON.stringify(data, null, 2)` (a JS runtime builtin, modelled). -/

/-- Lowercase hexadecimal digit, as `JSON.stringify` prints `\u` escapes. -/
def hexDigit (n : Nat) : Char :=
  if n < 10 then Char.ofNat (48 + n) else Char.ofNat (87 + n)

/-- Four lowercase hexadecimal digits. -/
def hex4 (n : Nat) : String :=
  String.mk [hexDigit (n / 4096 % 16), hexDigit (n / 256 % 16),
             hexDigit (n / 16 % 16), hexDigit (n % 16)]

/-- How `JSON.stringify` escapes one character inside a string literal. -/
def jsonEscapeChar (c : Char) : String :=
  if c = '"' then "\\\""
  else if c = '\\' then "\\\\"
  else if c = '\n' then "\\n"
  else if c = '\r' then "\\r"
  else if c = '\t' then "\\t"
  else if c = '\x08' then "\\b"
  else if c = '\x0c' then "\\f"
  else if c.toNat < 32 then "\\u" ++ hex4 c.toNat
  else String.mk [c]

/-- A JSON string literal for `s`, as `JSON.stringify` prints it. -/
def jsonQuote (s : String) : String :=
  "\"" ++ String.join (s.data.map jsonEscapeChar) ++ "\""

/-- Joins pre-rendered JSON items with a separator. -/
def joinSep (sep : String) : List String → String
  | [] => ""
  | [x] => x
  | x :: xs => x ++ sep ++ joinSep sep xs

/-- One tech entry as `JSON.stringify(data, null, 2)` renders it (the
entry sits at nesting depth 2, its keys at depth 3). -/
def jsonTech (t : RawTech) : String :=
  "    \x7b\n      \"title\": " ++ jsonQuote t.title
    ++ ",\n      \"knowledge\": " ++ toString t.knowledge ++ "\n    \x7d"

/-- The `techs` array as `JSON.stringify(data, null, 2)` renders it. -/
def jsonTechs (ts : List RawTech) : String :=
  match ts with
  | [] => "[]"
  | _ => "[\n" ++ joinSep ",\n" (ts.map jsonTech) ++ "\n  ]"

/-- `JSON.stringify(data, null, 2)` on the parsed form data.  Keys appear
in schema declaration order; the `File` object has no own enumerable
properties, so the avatar serializes as the empty object. -/
def jsonStringifyUser (d : CreateUserFormData) : String :=
  "\x7b\n  \"avatar\": \x7b\x7d,\n  \"name\": " ++ jsonQuote d.name
    ++ ",\n  \"email\": " ++ jsonQuote d.email
    ++ ",\n  \"password\": " ++ jsonQuote d.password
    ++ ",\n  \"techs\": " ++ jsonTechs d.techs ++ "\n\x7d"

/- ### Component state, effects, and the handlers of `App`. -/

/-- Observable effects a submission can perform: the supabase storage
upload (`supabase.storage.from(bucket).upload(path, file)`, the one
network call) and the `setOutput` React state update. -/
inductive Effect where
  | storageUpload (bucket : String) (path : String) (file : JSFile)
  | setOutput (s : String)
deriving DecidableEq, Repr

/-- True exactly on the storage-upload (network) effect. -/
def Effect.isNetworkCall : Effect → Bool
  | .storageUpload _ _ _ => true
  | _ => false

/-- True exactly on the local output-state update. -/
def Effect.isSetOutput : Effect → Bool
  | .setOutput _ => true
  | _ => false

/-- The state `App` closes over: the `output` string from `useState("")`,
the `techs` field array from `useFieldArray`, and (as the model of the
remote side) the list of blobs uploaded to the storage bucket. -/
structure AppState where
  output : String
  techFields : List RawTech
  uploaded : List (String × String × JSFile)
deriving DecidableEq, Repr

/-- `createUser`, the submit handler, as its ordered list of effects:
`await supabase.storage.from("forms-react").upload(data.avatar.name, data.avatar)`
then `setOutput(JSON.stringify(data, null, 2))`. -/
def createUser (data : CreateUserFormData) : List Effect :=
  [Effect.storageUpload "forms-react" data.avatar.name data.avatar,
   Effect.setOutput (jsonStringifyUser data)]

/-- `handleSubmit(createUser)` as the effect list one submission emits:
react-hook-form runs the zod resolver and invokes `createUser` only when
it returns parsed data; on a validation error (or a resolver exception)
the handler is never called and nothing is emitted. -/
def submitEffects (raw : RawFormData) : List Effect :=
  match createUserFormSchemaParse raw with
  | .ok data => createUser data
  | _ => []

/-- Applying one effect to the state. -/
def applyEffect (st : AppState) : Effect → AppState
  | .storageUpload b p f => { st with uploaded := st.uploaded ++ [(b, p, f)] }
  | .setOutput s => { st with output := s }

/-- Running a list of effects in order. -/
def runEffects (st : AppState) (es : List Effect) : AppState :=
  es.foldl applyEffect st

/-- One full form submission: validate, then run the emitted effects. -/
def handleSubmitModel (raw : RawFormData) (st : AppState) : AppState :=
  runEffects st (submitEffects raw)

/-- `addNewTech`: `append({ title: "", knowledge: 0 })` on the
`useFieldArray` — appends one entry at the end of the field array. -/
def addNewTech (fields : List RawTech) : List RawTech :=
  fields ++ [⟨"", 0⟩]

/-- A concrete submission the schema accepts, used to instantiate theorems. -/
def okRaw : RawFormData :=
  ⟨some [⟨"a.png", 100⟩], "ana bo", "Ana@boo.com.br", "123456",
   [⟨"react", 60⟩, ⟨"node", 10⟩]⟩

/-- The parsed output of `okRaw`. -/
def okData : CreateUserFormData :=
  ⟨⟨"a.png", 100⟩, "Ana Bo", "ana@boo.com.br", "123456",
   [⟨"react", 60⟩, ⟨"node", 10⟩]⟩

/-- A concrete submission the schema rejects (every field invalid). -/
def badRaw : RawFormData := ⟨none, "", "nope", "123", []⟩

/- ### Helper lemmas -/

theorem char_toNat_ofNat {n : Nat} (h : n.isValidChar) : (Char.ofNat n).toNat = n := by
  unfold Char.ofNat
  rw [dif_pos h]
  rfl

theorem jsCharToLower_not_upper (c : Char) :
    ¬(65 ≤ (jsCharToLower c).toNat ∧ (jsCharToLower c).toNat ≤ 90) := by
  unfold jsCharToLower
  split
  · rename_i h
    have hv : (c.toNat + 32).isValidChar := Or.inl (by omega)
    rw [char_toNat_ofNat hv]
    omega
  · rename_i h
    omega

theorem parse_ok_inv {raw : RawFormData} {data : CreateUserFormData}
    (h : createUserFormSchemaParse raw = .ok data) :
    avatarParse raw.avatar = .ok data.avatar ∧
    nameParse raw.name = .ok data.name ∧
    emailParse raw.email = .ok data.email ∧
    passwordParse raw.password = .ok data.password ∧
    techsParse raw.techs = .ok data.techs := by
  unfold createUserFormSchemaParse at h
  split at h
  · exact absurd h (by simp)
  · split at h <;> cases h
    simp_all

/- ### The claims -/

/-- C1: the submit handler `createUser` always calls the supabase storage
upload on the bucket `forms-react` with the parsed avatar file's name and
contents; and (per the note) when no registered input supplies the avatar,
the schema's `instanceof(FileList)` check rejects, so no parse succeeds. -/
theorem c1_createUser_uploads (data : CreateUserFormData) :
    Effect.storageUpload "forms-react" data.avatar.name data.avatar ∈ createUser data ∧
    ∀ f, avatarParse none ≠ ZResult.ok f := by
  constructor
  · simp [createUser]
  · intro f h
    simp [avatarParse] at h

theorem c1_witness :
    Effect.storageUpload "forms-react" okData.avatar.name okData.avatar ∈ createUser okData :=
  (c1_createUser_uploads okData).1

/-- C2: whenever the schema rejects the raw submission (no parse result),
react-hook-form never invokes `createUser`: the submission emits no effect
at all — no storage upload — and the component state, in particular the
on-screen output, is unchanged. -/
theorem c2_invalid_submission_no_effect (raw : RawFormData) (st : AppState)
    (h : ∀ data, createUserFormSchemaParse raw ≠ ZResult.ok data) :
    submitEffects raw = [] ∧ handleSubmitModel raw st = st := by
  have he : submitEffects raw = [] := by
    unfold submitEffects
    split
    · rename_i data heq
      exact absurd heq (h data)
    · rfl
  refine ⟨he, ?_⟩
  unfold handleSubmitModel
  rw [he]
  rfl

theorem c2_witness :
    submitEffects badRaw = [] ∧
    handleSubmitModel badRaw ⟨"", [], []⟩ = ⟨"", [], []⟩ := by
  apply c2_invalid_submission_no_effect
  intro data h
  have hbad : createUserFormSchemaParse badRaw
      = ZResult.invalid "Input not instance of FileList" := by decide
  rw [hbad] at h
  cases h

/-- C3: on every successful submission the awaited storage upload comes
strictly before the output-state update in the emitted effect order: any
position holding `setOutput` is preceded by every position holding the
upload. -/
theorem c3_upload_before_output (raw : RawFormData) (data : CreateUserFormData)
    (hok : createUserFormSchemaParse raw = ZResult.ok data)
    (i j : Nat) (s bucket path : String) (f : JSFile)
    (hi : (submitEffects raw)[i]? = some (Effect.setOutput s))
    (hj : (submitEffects raw)[j]? = some (Effect.storageUpload bucket path f)) :
    j < i := by
  have he : submitEffects raw = createUser data := by
    unfold submitEffects
    rw [hok]
  rw [he] at hi hj
  unfold createUser at hi hj
  match i, j with
  | 0, _ => simp at hi
  | _ + 1, 0 => exact Nat.succ_pos _
  | _ + 1, j + 1 =>
    match j with
    | 0 => simp at hj
    | _ + 1 => simp at hj

set_option maxRecDepth 10000 in
theorem c3_witness :
    createUserFormSchemaParse okRaw = ZResult.ok okData ∧ (0 : Nat) < 1 :=
  ⟨by decide,
   c3_upload_before_output okRaw okData (by decide) 1 0
     (jsonStringifyUser okData) "forms-react" "a.png" ⟨"a.png", 100⟩
     (by decide) (by decide)⟩

/-- C4: the text echoed to the screen after a successful submission is the
two-space-indented JSON serialization of the parsed, schema-transformed
data: the name has gone through the capitalize transform, the email is the
lowercased input, and the avatar is the first file of the submitted
`FileList` — not the raw input values. -/
theorem c4_output_is_parsed_json (raw : RawFormData) (st : AppState)
    (data : CreateUserFormData)
    (hok : createUserFormSchemaParse raw = ZResult.ok data) :
    (handleSubmitModel raw st).output = jsonStringifyUser data ∧
    nameTransform raw.name = ZResult.ok data.name ∧
    data.email = jsToLower raw.email ∧
    (∃ fl, raw.avatar = some fl ∧ fl.head? = some data.avatar) := by
  obtain ⟨ha, hn, he, hp, ht⟩ := parse_ok_inv hok
  refine ⟨?_, ?_, ?_, ?_⟩
  · unfold handleSubmitModel submitEffects
    rw [hok]
    rfl
  · unfold nameParse at hn
    split at hn
    · cases hn
    · exact hn
  · unfold emailParse at he
    split at he
    · cases he
    · split at he
      · cases he
      · split at he
        · injection he with he'
          exact he'.symm
        · cases he
  · unfold avatarParse at ha
    split at ha
    · cases ha
    · rename_i files hav
      split at ha
      · cases ha
      · rename_i f hhead
        split at ha
        · injection ha with ha'
          exact ⟨files, hav, ha' ▸ hhead⟩
        · cases ha

set_option maxRecDepth 10000 in
theorem c4_witness :
    createUserFormSchemaParse okRaw = ZResult.ok okData ∧
    ((handleSubmitModel okRaw ⟨"", [], []⟩).output = jsonStringifyUser okData ∧
     nameTransform okRaw.name = ZResult.ok okData.name ∧
     okData.email = jsToLower okRaw.email ∧
     (∃ fl, okRaw.avatar = some fl ∧ fl.head? = some okData.avatar)) :=
  ⟨by decide, c4_output_is_parsed_json okRaw ⟨"", [], []⟩ okData (by decide)⟩

/-- C5: a submission performs at most one network call, and a successful
one performs exactly one: the single storage upload through the supabase
SDK. -/
theorem c5_one_network_call (raw : RawFormData) :
    (submitEffects raw).countP Effect.isNetworkCall ≤ 1 ∧
    (∀ data, createUserFormSchemaParse raw = ZResult.ok data →
      (submitEffects raw).countP Effect.isNetworkCall = 1) := by
  have hcount : ∀ data : CreateUserFormData,
      (createUser data).countP Effect.isNetworkCall = 1 := by
    intro data
    rfl
  constructor
  · unfold submitEffects
    split
    · rename_i data heq
      rw [hcount data]
    · simp
  · intro data hok
    unfold submitEffects
    rw [hok]
    exact hcount data

theorem c5_witness :
    (submitEffects okRaw).countP Effect.isNetworkCall ≤ 1 ∧
    (submitEffects okRaw).countP Effect.isNetworkCall = 1 :=
  ⟨(c5_one_network_call okRaw).1, (c5_one_network_call okRaw).2 okData (by decide)⟩

/-- C6: a submission's only effects are the storage upload and the update
of the local `output` state: every emitted effect is one of those two
kinds, and the rest of the component state — the techs field array — is
left untouched. -/
theorem c6_submit_frame (raw : RawFormData) (st : AppState) :
    (handleSubmitModel raw st).techFields = st.techFields ∧
    ∀ e ∈ submitEffects raw, e.isNetworkCall = true ∨ e.isSetOutput = true := by
  constructor
  · unfold handleSubmitModel
    have hrun : ∀ (es : List Effect) (st' : AppState),
        (runEffects st' es).techFields = st'.techFields := by
      intro es
      induction es with
      | nil => intro st'; rfl
      | cons e es ih =>
        intro st'
        have hstep : runEffects st' (e :: es) = runEffects (applyEffect st' e) es := rfl
        rw [hstep, ih]
        cases e <;> rfl
    exact hrun _ _
  · intro e he
    unfold submitEffects at he
    split at he
    · unfold createUser at he
      rcases List.mem_cons.mp he with rfl | he'
      · exact Or.inl rfl
      · rcases List.mem_cons.mp he' with rfl | he''
        · exact Or.inr rfl
        · cases he''
    · cases he

theorem c6_witness :
    (handleSubmitModel okRaw ⟨"", [], []⟩).techFields = [] ∧
    ((Effect.storageUpload "forms-react" "a.png" ⟨"a.png", 100⟩).isNetworkCall = true ∨
     (Effect.storageUpload "forms-react" "a.png" ⟨"a.png", 100⟩).isSetOutput = true) :=
  ⟨(c6_submit_frame okRaw ⟨"", [], []⟩).1,
   (c6_submit_frame okRaw ⟨"", [], []⟩).2
     (Effect.storageUpload "forms-react" "a.png" ⟨"a.png", 100⟩) (by decide)⟩

/-- C7: each `addNewTech` call appends exactly one entry, with title `""`
and knowledge `0`, at the end of the techs field array, leaving every
existing entry unchanged at its position. -/
theorem c7_addNewTech_appends (fields : List RawTech) :
    (addNewTech fields).length = fields.length + 1 ∧
    (addNewTech fields)[fields.length]? = some ⟨"", 0⟩ ∧
    ∀ i, i < fields.length → (addNewTech fields)[i]? = fields[i]? := by
  refine ⟨by simp [addNewTech], ?_, ?_⟩
  · unfold addNewTech
    exact List.getElem?_concat_length fields ⟨"", 0⟩
  · intro i hi
    unfold addNewTech
    exact List.getElem?_append_left hi

theorem c7_witness :
    (addNewTech [⟨"a", 1⟩]).length = 2 ∧
    (addNewTech [⟨"a", 1⟩])[1]? = some ⟨"", 0⟩ ∧
    (addNewTech [⟨"a", 1⟩])[0]? = [(⟨"a", 1⟩ : RawTech)][0]? :=
  ⟨(c7_addNewTech_appends [⟨"a", 1⟩]).1,
   (c7_addNewTech_appends [⟨"a", 1⟩]).2.1,
   (c7_addNewTech_appends [⟨"a", 1⟩]).2.2 0 (by decide)⟩

/-- C8: the schema accepts a techs list exactly when it has at least two
entries, every entry has a nonempty title and a (coerced) knowledge
between 1 and 100 inclusive, and some entry has knowledge strictly above
50. -/
theorem c8_techs_acceptance (ts : List RawTech) :
    techsParse ts = ZResult.ok ts ↔
      (2 ≤ ts.length ∧
       (∀ t ∈ ts, t.title ≠ "" ∧ 1 ≤ t.knowledge ∧ t.knowledge ≤ 100) ∧
       (∃ t ∈ ts, 50 < t.knowledge)) := by
  have hall : ts.all techOk = true ↔
      ∀ t ∈ ts, t.title ≠ "" ∧ 1 ≤ t.knowledge ∧ t.knowledge ≤ 100 := by
    simp [List.all_eq_true, techOk, and_assoc]
  have hany : ts.any (fun t => 50 < t.knowledge) = true ↔
      ∃ t ∈ ts, 50 < t.knowledge := by
    simp [List.any_eq_true]
  unfold techsParse
  split_ifs with h1 h2 h3
  · simp only [Bool.not_eq_true'] at h1
    constructor
    · intro h; cases h
    · rintro ⟨_, hforall, _⟩
      rw [hall.mpr hforall] at h1
      cases h1
  · constructor
    · intro h; cases h
    · rintro ⟨hlen, _, _⟩
      omega
  · simp only [Bool.not_eq_true'] at h1
    constructor
    · intro _
      exact ⟨by omega, hall.mp (by simpa using h1), hany.mp h3⟩
    · intro _
      rfl
  · constructor
    · intro h; cases h
    · rintro ⟨_, _, hsome⟩
      exact absurd (hany.mpr hsome) h3

theorem c8_witness :
    techsParse [⟨"a", 60⟩, ⟨"b", 1⟩] = ZResult.ok [⟨"a", 60⟩, ⟨"b", 1⟩] :=
  (c8_techs_acceptance [⟨"a", 60⟩, ⟨"b", 1⟩]).mpr
    ⟨by decide, by decide, by decide⟩

theorem mapM_capitalizeWord_none {l : List String} (h : "" ∈ l) :
    l.mapM capitalizeWord = none := by
  induction l with
  | nil => cases h
  | cons w ws ih =>
    rw [List.mapM_cons]
    rcases List.mem_cons.mp h with rfl | hmem
    · rfl
    · rw [ih hmem]
      cases capitalizeWord w <;> rfl

/-- C9: a name that passes the nonempty check but splits (after trimming,
on single spaces) into a list containing an empty word — two consecutive
spaces, or a name of only spaces — makes the name transform evaluate
`word[0].toLocaleUpperCase()` on `undefined`: the parse throws a
`TypeError` instead of returning a parsed value or a validation issue. -/
theorem c9_name_transform_throws (s : String)
    (hne : s ≠ "") (hempty : "" ∈ jsSplitOnChar ' ' (jsTrim s)) :
    nameParse s = ZResult.thrown := by
  unfold nameParse
  rw [if_neg hne]
  unfold nameTransform
  rw [mapM_capitalizeWord_none hempty]

theorem c9_witness :
    " " ≠ "" ∧ "" ∈ jsSplitOnChar ' ' (jsTrim " ") ∧
    nameParse " " = ZResult.thrown :=
  ⟨by decide, by decide, c9_name_transform_throws " " (by decide) (by decide)⟩

/-- C10: every email the schema accepts is entirely lowercase (it contains
no ASCII uppercase letter, being the `toLowerCase` of the input) and ends
with the suffix `@boo.com.br`, whatever the letter case of the input. -/
theorem c10_email_lowercase_suffix (s e : String) (h : emailParse s = ZResult.ok e) :
    (∀ c ∈ e.data, ¬(65 ≤ c.toNat ∧ c.toNat ≤ 90)) ∧
    jsEndsWith e "@boo.com.br" = true := by
  unfold emailParse at h
  split at h
  · cases h
  · split at h
    · cases h
    · split at h
      · rename_i hends
        injection h with h'
        subst h'
        refine ⟨?_, hends⟩
        intro c hc
        have hdata : (jsToLower s).data = s.data.map jsCharToLower := rfl
        rw [hdata] at hc
        obtain ⟨c', _, rfl⟩ := List.mem_map.mp hc
        exact jsCharToLower_not_upper c'
      · cases h

theorem c10_witness :
    emailParse "Ana@boo.com.br" = ZResult.ok "ana@boo.com.br" ∧
    ((∀ c ∈ ("ana@boo.com.br" : String).data, ¬(65 ≤ c.toNat ∧ c.toNat ≤ 90)) ∧
     jsEndsWith "ana@boo.com.br" "@boo.com.br" = true) :=
  ⟨by decide, c10_email_lowercase_suffix "Ana@boo.com.br" "ana@boo.com.br" (by decide)⟩
